import Mathlib

/-!
Verification of the axela digest pipeline core.

This file shallowly embeds the digest generation and deduplication pipeline of
the axela repository (collector base class, digest orchestration service,
in-memory event bus, error alert subscriber, and the SQLAlchemy repository
layer) as executable Lean definitions, and proves the specified properties
about those definitions.

Modelling conventions:
- UUIDs are represented as natural numbers (only identity matters).
- Timestamps are integers (seconds); `datetime` arithmetic on `timedelta`
  values maps to integer arithmetic.
- Python dictionaries carrying JSON payloads are association lists over a
  `Json` inductive; a dict never has duplicate keys, which appears as a
  `Nodup` hypothesis on the key list where relevant.
- Database tables are Lean lists of row structures; SQL queries are embedded
  as list computations mirroring the generated SQL's semantics.
- Exceptions are modelled with `Except String`, carrying `str(e)`.
-/

namespace Axela

abbrev UUID := Nat

/-! ## Sources and the project filter (`DigestService._get_sources_for_digest`) -/

/-- A row of the `sources` table, as seen by the orchestrator
(`SourceModel` / domain `Source`). Credentials and config are opaque to the
pipeline core and are not represented. -/
structure Source where
  id : UUID
  projectId : UUID
  sourceType : String
  name : String
  isActive : Bool
  lastSyncedAt : Option Int
  deriving Repr, DecidableEq

/-- Embedding of `SourceRepositoryImpl.get_active`: all sources with `is_active = true`. -/
def getActiveSources (sources : List Source) : List Source :=
  sources.filter (fun s => s.isActive)

/-- Embedding of `DigestService._get_sources_for_digest`: fetch the active sources, then,
when the Python condition `if project_ids:` is truthy (i.e. the argument is
neither `None` nor the empty list), keep only sources whose project is listed.
-/
def getSourcesForDigest (sources : List Source) (projectIds : Option (List UUID)) :
    List Source :=
  let active := getActiveSources sources
  match projectIds with
  | none => active
  | some pids =>
      if pids.isEmpty then active
      else active.filter (fun s => pids.contains s.projectId)

/-! ## Error alert subscriber (`ErrorAlertService`) -/

/-- The cooldown constant `ALERT_COOLDOWN = timedelta(minutes=30)`, in seconds. -/
def ALERT_COOLDOWN : Int := 1800

/-- The `_last_alerts` dictionary of `ErrorAlertService`, keyed by source id. -/
abbrev AlertState := List (UUID × Int)

/-- Dictionary lookup in `_last_alerts`. -/
def alertLookup (st : AlertState) (src : UUID) : Option Int :=
  match st with
  | [] => none
  | p :: rest => if p.1 = src then some p.2 else alertLookup rest src

/-- Dictionary assignment `self._last_alerts[source_id] = now`. -/
def alertInsert (st : AlertState) (src : UUID) (t : Int) : AlertState :=
  match st with
  | [] => [(src, t)]
  | p :: rest => if p.1 = src then (src, t) :: rest else p :: alertInsert rest src t

/-- Embedding of `ErrorAlertService._should_alert`: alert iff the source has no recorded
alert yet, or `now - last_alert >= ALERT_COOLDOWN`. -/
def shouldAlert (st : AlertState) (now : Int) (src : UUID) : Bool :=
  match alertLookup st src with
  | none => true
  | some last => ALERT_COOLDOWN ≤ now - last

/-- Observable outcome of one `handle_collector_failed` call: the new
`_last_alerts` state, whether `bot.send_message` was invoked, and whether the
delivery succeeded (only then is the timestamp recorded). -/
structure AlertOutcome where
  state : AlertState
  attempted : Bool
  delivered : Bool
  deriving Repr, DecidableEq

/-- Embedding of `ErrorAlertService.handle_collector_failed` for a failure event of source
`src` arriving at time `now`. `deliveryOk` models whether the external
`bot.send_message` call succeeds; when it raises, the exception is swallowed
and no state is recorded. Source-name resolution and message formatting do
not affect the cooldown state and are omitted. -/
def handleCollectorFailed (st : AlertState) (now : Int) (src : UUID)
    (deliveryOk : Bool) : AlertOutcome :=
  if !(shouldAlert st now src) then ⟨st, false, false⟩
  else if deliveryOk then ⟨alertInsert st src now, true, true⟩
  else ⟨st, true, false⟩

/-- One `CollectorFailed` delivery to the alert subscriber: arrival time,
failing source, and whether the notification delivery would succeed. -/
structure AlertEvent where
  now : Int
  src : UUID
  deliveryOk : Bool
  deriving Repr, DecidableEq

/-- Run a sequence of `CollectorFailed` deliveries through the alert
subscriber, returning the final state and the log of successful notifications
as `(time, source)` pairs in delivery order. -/
def runAlertTrace (st : AlertState) : List AlertEvent → AlertState × List (Int × UUID)
  | [] => (st, [])
  | e :: rest =>
      let o := handleCollectorFailed st e.now e.src e.deliveryOk
      let (st', log) := runAlertTrace o.state rest
      (st', (if o.delivered then [(e.now, e.src)] else []) ++ log)

/-- Times of successful notifications for a fixed source in a trace. -/
def sentTimes (st : AlertState) (evs : List AlertEvent) (src : UUID) : List Int :=
  ((runAlertTrace st evs).2.filter (fun p => p.2 == src)).map Prod.fst

/-- Minimum separation between successful alerts for one source. -/
def alertSep (a b : Int) : Prop := a + ALERT_COOLDOWN ≤ b

/-- The cooldown chain condition, seeded by the recorded last-alert time of
the source when one exists. -/
def chainFrom (seed : Option Int) (ts : List Int) : Prop :=
  match seed with
  | none => List.Chain' alertSep ts
  | some t0 => List.Chain alertSep t0 ts

lemma alertLookup_insert_self (st : AlertState) (src : UUID) (t : Int) :
    alertLookup (alertInsert st src t) src = some t := by
  induction st with
  | nil => simp [alertInsert, alertLookup]
  | cons p rest ih =>
      by_cases h : p.1 = src
      · simp [alertInsert, alertLookup, h]
      · simpa [alertInsert, alertLookup, h] using ih

lemma alertLookup_insert_other (st : AlertState) (src other : UUID) (t : Int)
    (hne : other ≠ src) :
    alertLookup (alertInsert st src t) other = alertLookup st other := by
  induction st with
  | nil => simp [alertInsert, alertLookup, Ne.symm hne]
  | cons p rest ih =>
      by_cases h : p.1 = src
      · subst h
        simp [alertInsert, alertLookup, Ne.symm hne]
      · by_cases h2 : p.1 = other
        · simp [alertInsert, alertLookup, h, h2, hne]
        · simpa [alertInsert, alertLookup, h, h2, hne] using ih

lemma handle_state_cases (st : AlertState) (now : Int) (src : UUID) (ok : Bool) :
    (handleCollectorFailed st now src ok).state = st ∨
      ((handleCollectorFailed st now src ok).state = alertInsert st src now ∧
        (handleCollectorFailed st now src ok).delivered = true) := by
  unfold handleCollectorFailed
  by_cases h : shouldAlert st now src
  · cases ok <;> simp [h]
  · simp [h]

lemma handle_lookup_other (st : AlertState) (now : Int) (src other : UUID) (ok : Bool)
    (hne : other ≠ src) :
    alertLookup (handleCollectorFailed st now src ok).state other = alertLookup st other := by
  rcases handle_state_cases st now src ok with h | ⟨h, _⟩
  · rw [h]
  · rw [h, alertLookup_insert_other st src other now hne]

lemma handle_not_delivered_state (st : AlertState) (now : Int) (src : UUID) (ok : Bool)
    (h : (handleCollectorFailed st now src ok).delivered = false) :
    (handleCollectorFailed st now src ok).state = st := by
  rcases handle_state_cases st now src ok with h1 | ⟨_, h2⟩
  · exact h1
  · rw [h] at h2; cases h2

lemma handle_delivered_state (st : AlertState) (now : Int) (src : UUID) (ok : Bool)
    (h : (handleCollectorFailed st now src ok).delivered = true) :
    (handleCollectorFailed st now src ok).state = alertInsert st src now ∧
      shouldAlert st now src = true := by
  unfold handleCollectorFailed at h ⊢
  by_cases hs : shouldAlert st now src
  · cases ok <;> simp_all
  · simp [hs] at h

lemma runAlertTrace_cons (st : AlertState) (e : AlertEvent) (rest : List AlertEvent) :
    runAlertTrace st (e :: rest) =
      ((runAlertTrace (handleCollectorFailed st e.now e.src e.deliveryOk).state rest).1,
        (if (handleCollectorFailed st e.now e.src e.deliveryOk).delivered then
            [(e.now, e.src)] else []) ++
          (runAlertTrace (handleCollectorFailed st e.now e.src e.deliveryOk).state rest).2) :=
  rfl

lemma sentTimes_cons (st : AlertState) (e : AlertEvent) (rest : List AlertEvent) (src : UUID) :
    sentTimes st (e :: rest) src =
      (if (handleCollectorFailed st e.now e.src e.deliveryOk).delivered ∧ e.src = src
        then [e.now] else []) ++
      sentTimes (handleCollectorFailed st e.now e.src e.deliveryOk).state rest src := by
  unfold sentTimes
  rw [runAlertTrace_cons]
  by_cases hd : (handleCollectorFailed st e.now e.src e.deliveryOk).delivered
  · by_cases hsrc : e.src = src
    · subst hsrc
      simp [hd, List.filter_append]
    · simp [hd, hsrc, List.filter_append]
  · simp [hd]

lemma alert_trace_chain (evs : List AlertEvent) :
    ∀ st src, chainFrom (alertLookup st src) (sentTimes st evs src) := by
  induction evs with
  | nil =>
      intro st src
      cases h : alertLookup st src <;> simp [sentTimes, runAlertTrace, chainFrom, h]
  | cons e rest ih =>
      intro st src
      rw [sentTimes_cons]
      by_cases hd : (handleCollectorFailed st e.now e.src e.deliveryOk).delivered
      · by_cases hsrc : e.src = src
        · subst hsrc
          obtain ⟨hstate, hshould⟩ := handle_delivered_state st e.now e.src e.deliveryOk hd
          rw [hstate, if_pos ⟨hd, rfl⟩, List.singleton_append]
          have htail := ih (alertInsert st e.src e.now) e.src
          rw [alertLookup_insert_self] at htail
          simp only [chainFrom] at htail
          cases hlook : alertLookup st e.src with
          | none =>
              simp only [chainFrom]
              exact htail
          | some t0 =>
              simp only [shouldAlert, hlook, decide_eq_true_eq] at hshould
              have hsep : alertSep t0 e.now := by
                unfold ALERT_COOLDOWN at hshould
                unfold alertSep ALERT_COOLDOWN
                omega
              simp only [chainFrom]
              exact List.Chain.cons hsep htail
        · rw [if_neg (fun h => hsrc h.2), List.nil_append]
          have := ih (handleCollectorFailed st e.now e.src e.deliveryOk).state src
          rwa [handle_lookup_other st e.now e.src src e.deliveryOk (Ne.symm hsrc)] at this
      · have hdf : (handleCollectorFailed st e.now e.src e.deliveryOk).delivered = false := by
          revert hd; cases (handleCollectorFailed st e.now e.src e.deliveryOk).delivered <;> simp
        rw [if_neg (fun h => hd h.1), List.nil_append,
          handle_not_delivered_state st e.now e.src e.deliveryOk hdf]
        exact ih st src

/-- C6: the alert subscriber suppresses a `CollectorFailed` event (no
notification attempt, no state change) exactly when less than the 30-minute
cooldown has elapsed since the recorded last alert for that source; otherwise
it attempts delivery and records the current time only on success; handling
an event for one source never changes another source's cooldown entry; and in
any trace starting from a fresh subscriber the successful notification times
for a fixed source are pairwise separated by at least the cooldown, so at
most one notification is sent per cooldown window. -/
theorem alert_cooldown_spec (st : AlertState) (now : Int) (src other : UUID) (ok : Bool)
    (evs : List AlertEvent) :
    (∀ last, alertLookup st src = some last → now - last < ALERT_COOLDOWN →
        handleCollectorFailed st now src ok = ⟨st, false, false⟩) ∧
    (shouldAlert st now src = true →
        (handleCollectorFailed st now src ok).attempted = true ∧
        (ok = true → handleCollectorFailed st now src ok = ⟨alertInsert st src now, true, true⟩) ∧
        (ok = false → handleCollectorFailed st now src ok = ⟨st, true, false⟩)) ∧
    (other ≠ src →
        alertLookup (handleCollectorFailed st now src ok).state other = alertLookup st other) ∧
    List.Chain' alertSep (sentTimes [] evs src) := by
  refine ⟨?_, ?_, ?_, ?_⟩
  · intro last hlook hlt
    have hs : shouldAlert st now src = false := by
      unfold shouldAlert
      rw [hlook]
      simp only [decide_eq_false_iff_not, not_le]
      omega
    unfold handleCollectorFailed
    simp [hs]
  · intro hs
    unfold handleCollectorFailed
    cases ok <;> simp [hs]
  · exact fun hne => handle_lookup_other st now src other ok hne
  · have := alert_trace_chain evs [] src
    simpa [chainFrom, alertLookup] using this

/-- Witness for `alert_cooldown_spec` at concrete inputs: a second failure
19 minutes after a recorded alert is suppressed, and a three-event trace for
one source yields cooldown-separated notification times. -/
theorem alert_cooldown_spec_witness :
    handleCollectorFailed [(7, 100)] 1240 7 true = ⟨[(7, 100)], false, false⟩ ∧
    List.Chain' alertSep
      (sentTimes [] [⟨0, 7, true⟩, ⟨600, 7, true⟩, ⟨1800, 7, true⟩] 7) := by
  refine ⟨?_,
    (alert_cooldown_spec [] 0 7 0 true
      [⟨0, 7, true⟩, ⟨600, 7, true⟩, ⟨1800, 7, true⟩]).2.2.2⟩
  exact (alert_cooldown_spec [(7, 100)] 1240 7 0 true []).1 100 rfl (by decide)

/-- C9: passing an empty `project_ids` list to the source selection applies no
project filter at all — the result is identical to passing `None`, namely all
active sources, rather than no sources. -/
theorem empty_project_filter_spec (sources : List Source) :
    getSourcesForDigest sources (some []) = getSourcesForDigest sources none ∧
    getSourcesForDigest sources (some []) = getActiveSources sources := by
  constructor <;> simp [getSourcesForDigest]

/-! ## Event bus dispatcher (`InMemoryMessageBus._process_event`) -/

/-- The domain event types (`axela.domain.events`); the bus routes a handler
exactly by the runtime type of the published event. -/
inductive EvTy where
  | collectionStarted
  | collectionCompleted
  | collectorFailed
  | digestReady
  | digestSent
  | digestFailed
  | digestScheduled
  deriving Repr, DecidableEq

/-- A published event: its exact type plus an opaque payload. -/
structure BusEvent where
  ty : EvTy
  payload : Nat
  deriving Repr, DecidableEq

/-- A subscribed handler; a raising handler is modelled by an `error` result
carrying the exception text. -/
abbrev BusHandler := BusEvent → Except String Unit

/-- The `_handlers` defaultdict: for each event type, the list of subscribed
handlers in subscription order. -/
abbrev HandlerMap := EvTy → List BusHandler

/-- Embedding of `asyncio.gather(..., return_exceptions=True)` over `_call_handler` calls:
each handler is applied to the event once, in order; the returned pair is the
per-handler results (exceptions captured as values) and the trace of calls
made, as `(handler index, event)` pairs. -/
def runBusHandlers (e : BusEvent) : List BusHandler → Nat →
    List (Except String Unit) × List (Nat × BusEvent)
  | [], _ => ([], [])
  | h :: rest, i =>
      let r := h e
      let (rs, calls) := runBusHandlers e rest (i + 1)
      (r :: rs, (i, e) :: calls)

/-- Result of `_process_event` on one event: per-handler results, logged
handler errors, and the trace of handler invocations. -/
structure ProcessResult where
  results : List (Except String Unit)
  loggedErrors : List String
  calls : List (Nat × BusEvent)
  deriving Repr

/-- Embedding of `InMemoryMessageBus._process_event`: look up the handlers subscribed to
the event's exact type; with no handlers, return immediately; otherwise call
every handler (gathering exceptions as values) and log each failure. -/
def processEvent (handlers : HandlerMap) (e : BusEvent) : ProcessResult :=
  let hs := handlers e.ty
  if hs.isEmpty then ⟨[], [], []⟩
  else
    let (results, calls) := runBusHandlers e hs 0
    ⟨results,
      results.filterMap (fun r => match r with | .error m => some m | .ok _ => none),
      calls⟩

/-- The dispatcher's worker loop over a drained queue: each queued event is
processed in FIFO order; `_process_event` never propagates an exception, so
every event is processed regardless of earlier handler failures. -/
def processQueue (handlers : HandlerMap) (events : List BusEvent) : List ProcessResult :=
  events.map (processEvent handlers)

lemma runBusHandlers_spec (e : BusEvent) :
    ∀ (hs : List BusHandler) (i : Nat),
      (runBusHandlers e hs i).1 = hs.map (fun h => h e) ∧
      (runBusHandlers e hs i).2 = (List.range hs.length).map (fun k => (i + k, e)) := by
  intro hs
  induction hs with
  | nil => intro i; simp [runBusHandlers]
  | cons h rest ih =>
      intro i
      obtain ⟨ih1, ih2⟩ := ih (i + 1)
      refine ⟨?_, ?_⟩
      · simp [runBusHandlers, ih1]
      · simp only [runBusHandlers, ih2, List.length_cons, List.range_succ_eq_map,
          List.map_cons, List.map_map]
        refine congrArg₂ List.cons (by simp) ?_
        refine List.map_congr_left (fun k _ => ?_)
        simp only [Function.comp_apply]
        exact congrArg (fun n => (n, e)) (by omega)

/-- C7: the bus dispatcher invokes every handler subscribed to the event's
exact type exactly once with that event (the invocation trace is exactly one
call per subscribed handler index); each handler's outcome is its own — a
raising handler has its exception captured and logged without removing any
sibling handler's result; an event with no subscribed handlers is dropped
silently; and processing a queue touches every event regardless of handler
failures on earlier events. -/
theorem bus_dispatch_spec (handlers : HandlerMap) (e : BusEvent)
    (events : List BusEvent) :
    ((processEvent handlers e).calls =
        (List.range (handlers e.ty).length).map (fun k => (k, e))) ∧
    ((processEvent handlers e).results = (handlers e.ty).map (fun h => h e)) ∧
    ((processEvent handlers e).loggedErrors =
        ((handlers e.ty).map (fun h => h e)).filterMap
          (fun r => match r with | .error m => some m | .ok _ => none)) ∧
    (handlers e.ty = [] → processEvent handlers e = ⟨[], [], []⟩) ∧
    ((processQueue handlers events).length = events.length ∧
      ∀ k (hk : k < events.length),
        (processQueue handlers events).get ⟨k, by simpa [processQueue]⟩ =
          processEvent handlers (events.get ⟨k, hk⟩)) := by
  obtain ⟨h1, h2⟩ := runBusHandlers_spec e (handlers e.ty) 0
  by_cases hemp : (handlers e.ty).isEmpty
  · have hnil : handlers e.ty = [] := List.isEmpty_iff.mp hemp
    refine ⟨?_, ?_, ?_, ?_, ?_, ?_⟩ <;>
      simp [processEvent, processQueue, hnil, hemp]
  · refine ⟨?_, ?_, ?_, ?_, ?_, ?_⟩
    · simp only [processEvent, hemp, if_neg, Bool.false_eq_true, not_false_iff]
      simpa using h2
    · simp only [processEvent, hemp, if_neg, Bool.false_eq_true, not_false_iff]
      simpa using h1
    · simp only [processEvent, hemp, if_neg, Bool.false_eq_true, not_false_iff]
      simp [h1]
    · intro hnil
      rw [hnil] at hemp
      simp at hemp
    · simp [processQueue]
    · intro k hk
      simp [processQueue]

/-- Witness for `bus_dispatch_spec`: a no-handler event is dropped silently,
and a two-event queue is processed in full. -/
theorem bus_dispatch_spec_witness :
    processEvent (fun _ => []) ⟨.digestSent, 5⟩ = ⟨[], [], []⟩ ∧
    (processQueue (fun _ => [])
        [⟨.collectorFailed, 0⟩, ⟨.digestReady, 1⟩]).length = 2 := by
  constructor
  · exact (bus_dispatch_spec (fun _ => []) ⟨.digestSent, 5⟩ []).2.2.2.1 rfl
  · exact (bus_dispatch_spec (fun _ => []) ⟨.digestSent, 5⟩
      [⟨.collectorFailed, 0⟩, ⟨.digestReady, 1⟩]).2.2.2.2.1

/-! ## JSON values and the canonical serialization
(`BaseCollector.compute_content_hash`) -/

/-- JSON values, as carried by item content dicts. Objects are association
lists in insertion order; Python dicts never hold a key twice, which shows up
as `Nodup` hypotheses on key lists. Numbers are restricted to integers, the
only numeric payloads the hashed fields carry. -/
inductive Json where
  | null
  | bool (b : Bool)
  | num (n : Int)
  | str (s : String)
  | arr (xs : List Json)
  | obj (kvs : List (String × Json))
  deriving Repr

/-- Lower-case hexadecimal digit. -/
def hexDigit (n : Nat) : Char :=
  if n < 10 then Char.ofNat (48 + n) else Char.ofNat (87 + n)

/-- Four-digit lower-case hexadecimal rendering of a value below 2^16. -/
def hex4 (n : Nat) : String :=
  String.mk [hexDigit (n / 4096 % 16), hexDigit (n / 256 % 16),
    hexDigit (n / 16 % 16), hexDigit (n % 16)]

/-- Escape one character the way `json.dumps` (default `ensure_ascii=True`)
does: two-character shorthands for quote, backslash and common control
characters, `\uXXXX` for the other control and all non-ASCII characters,
surrogate pairs above the basic multilingual plane. -/
def escapeChar (c : Char) : String :=
  if c = '"' then "\\\""
  else if c = '\\' then "\\\\"
  else if c = '\n' then "\\n"
  else if c = '\t' then "\\t"
  else if c = '\r' then "\\r"
  else if c.toNat = 8 then "\\b"
  else if c.toNat = 12 then "\\f"
  else if c.toNat < 32 then "\\u" ++ hex4 c.toNat
  else if c.toNat < 127 then String.mk [c]
  else if c.toNat < 65536 then "\\u" ++ hex4 c.toNat
  else
    let v := c.toNat - 65536
    "\\u" ++ hex4 (55296 + v / 1024) ++ "\\u" ++ hex4 (56320 + v % 1024)

/-- JSON string literal serialization. -/
def escapeString (s : String) : String :=
  "\"" ++ String.join (s.data.map escapeChar) ++ "\""

/-- Join serialized elements with the compact item separator of
`separators=(",", ":")`. -/
def commaJoin : List String → String
  | [] => ""
  | [x] => x
  | x :: y :: rest => x ++ "," ++ commaJoin (y :: rest)

/-- Comparison of object entries by key, as `sort_keys=True` compares a
dict's items (Python compares strings by code point, as `String.le` does). -/
def keyLE (a b : String × Json) : Prop := a.1 ≤ b.1

instance : DecidableRel keyLE := fun a b => inferInstanceAs (Decidable (a.1 ≤ b.1))

instance : IsTotal (String × Json) keyLE := ⟨fun a b => le_total a.1 b.1⟩

instance : IsTrans (String × Json) keyLE := ⟨fun _ _ _ h1 h2 => le_trans h1 h2⟩

/-- Strict key comparison, used to show the sorted entry list of a
duplicate-free dict is unique. -/
def keyLT (a b : String × Json) : Prop := a.1 < b.1

instance : IsAntisymm (String × Json) keyLT :=
  ⟨fun _ _ h1 h2 => absurd h1 (lt_asymm h2)⟩

/-- Ordering of object entries by key, as `sort_keys=True` orders a dict's
items. The concrete sorting algorithm is irrelevant on duplicate-free keys;
insertion sort is used here. -/
def sortKeys (kvs : List (String × Json)) : List (String × Json) :=
  kvs.insertionSort keyLE

/-- Embedding of
`json.dumps(content, sort_keys=True, separators=(",", ":"))`: the canonical
serialization with recursively sorted keys and no whitespace. -/
def Json.dumps : Json → String
  | .null => "null"
  | .bool true => "true"
  | .bool false => "false"
  | .num n => toString n
  | .str s => escapeString s
  | .arr xs => "[" ++ commaJoin (xs.attach.map (fun x => Json.dumps x.1)) ++ "]"
  | .obj kvs =>
      "\x7b" ++
        commaJoin ((sortKeys kvs).attach.map
          (fun kv => escapeString kv.1.1 ++ ":" ++ Json.dumps kv.1.2)) ++
        "\x7d"
decreasing_by
  · have := List.sizeOf_lt_of_mem x.2
    simp only [Json.arr.sizeOf_spec]
    omega
  · have h1 : kv.1 ∈ kvs := by
      have := kv.2
      unfold sortKeys at this
      exact (List.mem_insertionSort _).mp this
    have h2 := List.sizeOf_lt_of_mem h1
    have h3 : sizeOf kv.1.2 < sizeOf kv.1 := by
      rcases kv.1 with ⟨k, v⟩
      simp only [Prod.mk.sizeOf_spec]
      omega
    simp only [Json.obj.sizeOf_spec]
    omega

/-! ## SHA-256 (`hashlib.sha256`) -/

/-- Reduction to a 32-bit word. -/
def w32 (n : Nat) : Nat := n % 4294967296

/-- Right rotation of a 32-bit word. -/
def rotr32 (n x : Nat) : Nat := w32 ((x >>> n) ||| (x <<< (32 - n)))

/-- UTF-8 encoding of one character, as `str.encode()` produces it. -/
def utf8Bytes (c : Char) : List Nat :=
  let n := c.toNat
  if n < 128 then [n]
  else if n < 2048 then [192 ||| (n >>> 6), 128 ||| (n &&& 63)]
  else if n < 65536 then
    [224 ||| (n >>> 12), 128 ||| ((n >>> 6) &&& 63), 128 ||| (n &&& 63)]
  else
    [240 ||| (n >>> 18), 128 ||| ((n >>> 12) &&& 63),
      128 ||| ((n >>> 6) &&& 63), 128 ||| (n &&& 63)]

/-- UTF-8 bytes of a string. -/
def strBytes (s : String) : List Nat :=
  (s.data.map utf8Bytes).flatten

/-- Big-endian byte rendering of a value on a fixed number of bytes. -/
def beBytes : Nat → Nat → List Nat
  | 0, _ => []
  | k + 1, v => beBytes k (v / 256) ++ [v % 256]

/-- SHA-256 message padding: append `0x80`, zero bytes up to 56 mod 64, then
the bit length on eight big-endian bytes. -/
def sha256Pad (msg : List Nat) : List Nat :=
  let L := msg.length
  msg ++ [128] ++ List.replicate ((119 - (L % 64)) % 64) 0 ++ beBytes 8 (L * 8)

/-- Pack bytes into big-endian 32-bit words. -/
def bytesToWords : List Nat → List Nat
  | a :: b :: c :: d :: rest =>
      (((a * 256 + b) * 256 + c) * 256 + d) :: bytesToWords rest
  | _ => []

/-- Split a word list into 16-word blocks. -/
def chunks16 (ws : List Nat) : List (List Nat) :=
  if h : ws.isEmpty then []
  else ws.take 16 :: chunks16 (ws.drop 16)
termination_by ws.length
decreasing_by
  have : ws ≠ [] := fun hnil => by simp [hnil] at h
  have hpos : 0 < ws.length := List.length_pos.mpr this
  simp only [List.length_drop]
  omega

/-- The SHA-256 round constants. -/
def sha256K : List Nat :=
  [1116352408, 1899447441, 3049323471, 3921009573, 961987163,
   1508970993, 2453635748, 2870763221, 3624381080, 310598401,
   607225278, 1426881987, 1925078388, 2162078206, 2614888103,
   3248222580, 3835390401, 4022224774, 264347078, 604807628,
   770255983, 1249150122, 1555081692, 1996064986, 2554220882,
   2821834349, 2952996808, 3210313671, 3336571891, 3584528711,
   113926993, 338241895, 666307205, 773529912, 1294757372,
   1396182291, 1695183700, 1986661051, 2177026350, 2456956037,
   2730485921, 2820302411, 3259730800, 3345764771, 3516065817,
   3600352804, 4094571909, 275423344, 430227734, 506948616,
   659060556, 883997877, 958139571, 1322822218, 1537002063,
   1747873779, 1955562222, 2024104815, 2227730452, 2361852424,
   2428436474, 2756734187, 3204031479, 3329325298]

/-- The SHA-256 initial hash value. -/
def sha256H0 : List Nat :=
  [1779033703, 3144134277, 1013904242, 2773480762,
   1359893119, 2600822924, 528734635, 1541459225]

/-- Message-schedule sigma functions. -/
def ssig0 (x : Nat) : Nat := (rotr32 7 x) ^^^ (rotr32 18 x) ^^^ (x >>> 3)

/-- Second message-schedule sigma function. -/
def ssig1 (x : Nat) : Nat := (rotr32 17 x) ^^^ (rotr32 19 x) ^^^ (x >>> 10)

/-- Compression big sigma functions. -/
def bsig0 (x : Nat) : Nat := (rotr32 2 x) ^^^ (rotr32 13 x) ^^^ (rotr32 22 x)

/-- Second compression big sigma function. -/
def bsig1 (x : Nat) : Nat := (rotr32 6 x) ^^^ (rotr32 11 x) ^^^ (rotr32 25 x)

/-- Extend the message schedule by one word. -/
def scheduleStep (w : List Nat) : List Nat :=
  let n := w.length
  w ++ [w32 (ssig1 (w.getD (n - 2) 0) + w.getD (n - 7) 0 +
    ssig0 (w.getD (n - 15) 0) + w.getD (n - 16) 0)]

/-- The 64-word message schedule of one block. -/
def schedule (block : List Nat) : List Nat :=
  (List.range 48).foldl (fun acc _ => scheduleStep acc) block

/-- One compression round on the eight-word working state. -/
def compressStep (state : List Nat) (kw : Nat × Nat) : List Nat :=
  match state with
  | [a, b, c, d, e, f, g, h] =>
      let ch := (e &&& f) ^^^ ((4294967295 ^^^ e) &&& g)
      let maj := (a &&& b) ^^^ (a &&& c) ^^^ (b &&& c)
      let t1 := w32 (h + bsig1 e + ch + kw.1 + kw.2)
      let t2 := w32 (bsig0 a + maj)
      [w32 (t1 + t2), a, b, c, w32 (d + t1), e, f, g]
  | s => s

/-- Process one 16-word block into the running hash state. -/
def processBlock (h : List Nat) (block : List Nat) : List Nat :=
  let final := (sha256K.zip (schedule block)).foldl compressStep h
  (h.zip final).map (fun p => w32 (p.1 + p.2))

/-- The SHA-256 digest of a byte sequence, as eight 32-bit words. -/
def sha256Words (msg : List Nat) : List Nat :=
  (chunks16 (bytesToWords (sha256Pad msg))).foldl processBlock sha256H0

/-- Eight-digit lower-case hexadecimal rendering of a 32-bit word. -/
def hex8 (n : Nat) : String := hex4 (n / 65536) ++ hex4 (n % 65536)

/-- Hex digest of a byte sequence, as `hashlib.sha256(...).hexdigest()`. -/
def sha256Hex (msg : List Nat) : String :=
  String.join ((sha256Words msg).map hex8)

/-- Embedding of `BaseCollector.compute_content_hash`: the hex-encoded
SHA-256 of the canonical JSON serialization of the content dict. -/
def compute_content_hash (content : List (String × Json)) : String :=
  sha256Hex (strBytes (Json.dumps (Json.obj content)))

lemma sortKeys_sorted_keyLT (m : List (String × Json))
    (h : (m.map Prod.fst).Nodup) : List.Sorted keyLT (sortKeys m) := by
  have hs : List.Sorted keyLE (sortKeys m) := List.sorted_insertionSort keyLE m
  have hperm : (sortKeys m).Perm m := List.perm_insertionSort keyLE m
  have hnd : ((sortKeys m).map Prod.fst).Nodup :=
    ((hperm.map Prod.fst).nodup_iff).mpr h
  have hne : (sortKeys m).Pairwise (fun a b => a.1 ≠ b.1) := List.pairwise_map.mp hnd
  exact (hs.and hne).imp (fun hab => lt_of_le_of_ne hab.1 hab.2)

lemma sortKeys_eq_of_perm (m m' : List (String × Json)) (hperm : m.Perm m')
    (hnodup : (m.map Prod.fst).Nodup) : sortKeys m = sortKeys m' := by
  have hnodup' : (m'.map Prod.fst).Nodup := ((hperm.map Prod.fst).nodup_iff).mp hnodup
  refine List.eq_of_perm_of_sorted (r := keyLT) ?_ (sortKeys_sorted_keyLT m hnodup)
    (sortKeys_sorted_keyLT m' hnodup')
  exact (List.perm_insertionSort keyLE m).trans
    (hperm.trans (List.perm_insertionSort keyLE m').symm)

lemma dumps_obj_congr (m m' : List (String × Json)) (h : sortKeys m = sortKeys m') :
    Json.dumps (Json.obj m) = Json.dumps (Json.obj m') := by
  simp only [Json.dumps]
  rw [h]

/-- C3: the content hash is the hex-encoded SHA-256 of the canonical JSON
serialization of the content dict (keys sorted, no whitespace), and is
therefore invariant under any permutation of the dict's key order. The claim
that payloads differing in a change-relevant field hash differently with
overwhelming probability is the collision resistance of SHA-256, assumed of
the primitive rather than proved here. -/
theorem content_hash_canonical (m m' : List (String × Json)) (hperm : m.Perm m')
    (hnodup : (m.map Prod.fst).Nodup) :
    compute_content_hash m = sha256Hex (strBytes (Json.dumps (Json.obj m))) ∧
    compute_content_hash m = compute_content_hash m' := by
  refine ⟨rfl, ?_⟩
  unfold compute_content_hash
  rw [dumps_obj_congr m m' (sortKeys_eq_of_perm m m' hperm hnodup)]

/-- Witness for `content_hash_canonical`: two concrete two-key dicts that are
key-order permutations of each other hash identically. -/
theorem content_hash_canonical_witness :
    compute_content_hash [("title", Json.str "T"), ("assignee", Json.null)] =
      compute_content_hash [("assignee", Json.null), ("title", Json.str "T")] :=
  (content_hash_canonical
    [("title", Json.str "T"), ("assignee", Json.null)]
    [("assignee", Json.null), ("title", Json.str "T")]
    (List.Perm.swap ("assignee", Json.null) ("title", Json.str "T") [])
    (by decide)).2

/-! ## Change-relevant field hashing (`BaseCollector.create_digest_item`) -/

/-- A `datetime` value, identified by its `isoformat()` rendering, the only
view of it the hashed payload uses. -/
structure PyDatetime where
  iso : String
  deriving Repr, DecidableEq

/-- Embedding of Python's `content.get(key)` with the `None` default, as
serialized into the hash payload: a missing key contributes JSON null. -/
def pyGet (content : List (String × Json)) (k : String) : Json :=
  match content.find? (fun kv => kv.1 == k) with
  | some kv => kv.2
  | none => Json.null

/-- The domain `DigestItem` value produced by a collector. -/
structure DigestItem where
  sourceId : UUID
  externalId : String
  itemType : String
  title : Option String
  content : List (String × Json)
  contentHash : String
  metadata : List (String × Json)
  externalUrl : Option String
  externalCreatedAt : Option PyDatetime
  externalUpdatedAt : Option PyDatetime
  deriving Repr

/-- Embedding of `BaseCollector.create_digest_item`: build the five-field
`hash_content` dict from title, the `status`, `priority` and `assignee`
content fields, and the `isoformat` of `external_updated_at`, hash it, and
assemble the `DigestItem`. -/
def create_digest_item (sourceId : UUID) (externalId : String) (itemType : String)
    (title : Option String) (content : List (String × Json))
    (metadata : Option (List (String × Json))) (externalUrl : Option String)
    (externalCreatedAt externalUpdatedAt : Option PyDatetime) : DigestItem :=
  let hashContent : List (String × Json) :=
    [("title", match title with | some t => Json.str t | none => Json.null),
     ("status", pyGet content "status"),
     ("priority", pyGet content "priority"),
     ("assignee", pyGet content "assignee"),
     ("updated_at", match externalUpdatedAt with
        | some d => Json.str d.iso
        | none => Json.null)]
  { sourceId := sourceId
    externalId := externalId
    itemType := itemType
    title := title
    content := content
    contentHash := compute_content_hash hashContent
    metadata := metadata.getD []
    externalUrl := externalUrl
    externalCreatedAt := externalCreatedAt
    externalUpdatedAt := externalUpdatedAt }

/-- C10: the content hash assigned by `create_digest_item` depends only on
the title, the `status`, `priority` and `assignee` content fields, and the
`external_updated_at` timestamp — two items agreeing on those five values get
the same hash however much everything else differs, so no other difference
can make an item count as changed. -/
theorem digest_item_hash_depends_only_on_change_fields
    (s1 s2 : UUID) (e1 e2 ty1 ty2 : String) (ti1 ti2 : Option String)
    (c1 c2 : List (String × Json)) (md1 md2 : Option (List (String × Json)))
    (u1 u2 : Option String) (cr1 cr2 up1 up2 : Option PyDatetime)
    (htitle : ti1 = ti2)
    (hstatus : pyGet c1 "status" = pyGet c2 "status")
    (hpriority : pyGet c1 "priority" = pyGet c2 "priority")
    (hassignee : pyGet c1 "assignee" = pyGet c2 "assignee")
    (hupd : up1 = up2) :
    (create_digest_item s1 e1 ty1 ti1 c1 md1 u1 cr1 up1).contentHash =
      (create_digest_item s2 e2 ty2 ti2 c2 md2 u2 cr2 up2).contentHash := by
  simp only [create_digest_item]
  rw [htitle, hstatus, hpriority, hassignee, hupd]

/-- Witness for `digest_item_hash_depends_only_on_change_fields`: two items
from different sources with different ids, types, bodies, metadata, URLs and
creation times, agreeing only on the five change-relevant values, hash
identically. -/
theorem digest_item_hash_witness :
    (create_digest_item 1 "J-1" "jira_issue" (some "Fix bug")
        [("status", Json.str "open"), ("body", Json.str "first")]
        (some [("labels", Json.arr [Json.str "a"])])
        (some "https://x/1") (some ⟨"2024-01-01T00:00:00"⟩)
        (some ⟨"2024-02-01T00:00:00"⟩)).contentHash =
      (create_digest_item 2 "J-9" "email" (some "Fix bug")
        [("body", Json.str "second"), ("status", Json.str "open"),
          ("extra", Json.bool true)]
        none none none (some ⟨"2024-02-01T00:00:00"⟩)).contentHash :=
  digest_item_hash_depends_only_on_change_fields
    1 2 "J-1" "J-9" "jira_issue" "email" (some "Fix bug") (some "Fix bug")
    [("status", Json.str "open"), ("body", Json.str "first")]
    [("body", Json.str "second"), ("status", Json.str "open"),
      ("extra", Json.bool true)]
    (some [("labels", Json.arr [Json.str "a"])]) none
    (some "https://x/1") none (some ⟨"2024-01-01T00:00:00"⟩) none
    (some ⟨"2024-02-01T00:00:00"⟩) (some ⟨"2024-02-01T00:00:00"⟩)
    rfl rfl rfl rfl rfl

/-! ## Database tables (`axela.infrastructure.database.models`) -/

/-- A row of the `items` table (`ItemModel`). -/
structure ItemRow where
  id : UUID
  sourceId : UUID
  externalId : String
  itemType : String
  title : Option String
  content : List (String × Json)
  contentHash : String
  metadata : List (String × Json)
  externalUrl : Option String
  externalCreatedAt : Option PyDatetime
  externalUpdatedAt : Option PyDatetime
  fetchedAt : Int
  deriving Repr

/-- A row of the `digests` table (`DigestModel`). -/
structure DigestRow where
  id : UUID
  digestType : String
  status : String
  scheduledAt : Option Int
  sentAt : Option Int
  telegramMessageId : Option Nat
  content : Option String
  itemCount : Nat
  errorMessage : Option String
  deriving Repr, DecidableEq

/-- A row of the `digest_items` table (`DigestItemModel`), the shown-item
ledger. -/
structure LedgerRow where
  digestId : UUID
  itemId : UUID
  contentHashAtSend : String
  deriving Repr, DecidableEq

/-- A row of the `collector_errors` table (`CollectorErrorModel`). -/
structure ErrorRow where
  sourceId : UUID
  errorType : String
  errorMessage : String
  resolved : Bool
  deriving Repr, DecidableEq

/-- The database state seen by the pipeline. -/
structure Db where
  sources : List Source
  items : List ItemRow
  digests : List DigestRow
  ledger : List LedgerRow
  errors : List ErrorRow
  deriving Repr

/-! ## Item upsert (`ItemRepositoryImpl.upsert`) -/

/-- The upsert key of the `uq_items_source_external` unique constraint. -/
def itemKey (r : ItemRow) : UUID × String := (r.sourceId, r.externalId)

/-- Does a stored row conflict with the incoming item on the upsert key. -/
def sameKey (r : ItemRow) (it : DigestItem) : Bool :=
  r.sourceId == it.sourceId && r.externalId == it.externalId

/-- Embedding of `ItemRepositoryImpl.upsert`:
`INSERT ... ON CONFLICT ON CONSTRAINT uq_items_source_external DO UPDATE`.
On conflict the stored row keeps its id, item type and external creation
time, and takes the incoming title, content, content hash, metadata, external
URL and external update time, with `fetched_at` set to now; otherwise a new
row is appended. `newId` stands for the generated `uuid4()` and `now` for
`datetime.now(UTC)`. -/
def upsertItem (newId : UUID) (now : Int) (it : DigestItem)
    (rows : List ItemRow) : List ItemRow :=
  if rows.any (fun r => sameKey r it) then
    rows.map (fun r =>
      if sameKey r it then
        { r with
          title := it.title
          content := it.content
          contentHash := it.contentHash
          metadata := it.metadata
          externalUrl := it.externalUrl
          externalUpdatedAt := it.externalUpdatedAt
          fetchedAt := now }
      else r)
  else
    rows ++ [{
      id := newId
      sourceId := it.sourceId
      externalId := it.externalId
      itemType := it.itemType
      title := it.title
      content := it.content
      contentHash := it.contentHash
      metadata := it.metadata
      externalUrl := it.externalUrl
      externalCreatedAt := it.externalCreatedAt
      externalUpdatedAt := it.externalUpdatedAt
      fetchedAt := now }]

/-- A sequence of upserts (`ItemRepositoryImpl.upsert_many` runs one per
item, each with its own fresh id and fetch time). -/
def applyUpserts (ops : List (UUID × Int × DigestItem)) (rows : List ItemRow) :
    List ItemRow :=
  ops.foldl (fun rs op => upsertItem op.1 op.2.1 op.2.2 rs) rows

/-- The uniqueness invariant of `uq_items_source_external`: no two stored
rows share an upsert key. -/
def keyNodup (rows : List ItemRow) : Prop := (rows.map itemKey).Nodup

/-! ## Changed-item query (`ItemRepositoryImpl.get_changed_since_last_digest`) -/

/-- The subquery's join: ledger entries of one item joined to their digest row
and filtered to `Digest.status == "sent"`, paired with the digest's
`sent_at`. -/
def sentEntriesFor (db : Db) (itemId : UUID) : List (String × Option Int) :=
  db.ledger.filterMap (fun l =>
    if l.itemId == itemId then
      match db.digests.find? (fun d => d.id == l.digestId) with
      | some d =>
          if d.status == "sent" then some (l.contentHashAtSend, d.sentAt) else none
      | none => none
    else none)

/-- Is `a` strictly more recent than `b` in the query's
`ORDER BY sent_at DESC` order (PostgreSQL sorts a NULL first on DESC, so a
NULL `sent_at` counts as most recent)? -/
def moreRecent (a b : Option Int) : Bool :=
  match a, b with
  | none, none => false
  | none, some _ => true
  | some _, none => false
  | some x, some y => y < x

/-- The `DISTINCT ON (item_id) ... ORDER BY item_id, sent_at DESC` selection:
among an item's sent-digest ledger entries, keep one with maximal `sent_at`
(a tie between equal timestamps is implementation-defined, spec §9; the
earliest-listed maximal entry is kept here). -/
def pickLatest : List (String × Option Int) → Option (String × Option Int)
  | [] => none
  | e :: rest =>
      match pickLatest rest with
      | none => some e
      | some b => if moreRecent b.2 e.2 then some b else some e

/-- Embedding of `ItemRepositoryImpl.get_changed_since_last_digest`: select
the items of the source whose outer-joined latest sent-digest ledger entry is
absent (`content_hash_at_send IS NULL`) or records a hash different from the
item's current one. -/
def get_changed_since_last_digest (db : Db) (sourceId : UUID) : List ItemRow :=
  db.items.filter (fun i =>
    i.sourceId == sourceId &&
      match pickLatest (sentEntriesFor db i.id) with
      | none => true
      | some e => i.contentHash != e.1)

lemma sameKey_iff (r : ItemRow) (it : DigestItem) :
    sameKey r it = true ↔ itemKey r = (it.sourceId, it.externalId) := by
  simp [sameKey, itemKey, Prod.ext_iff]

lemma upsert_keys_conflict (nid : UUID) (now : Int) (it : DigestItem)
    (rows : List ItemRow) (h : rows.any (fun r => sameKey r it) = true) :
    (upsertItem nid now it rows).map itemKey = rows.map itemKey := by
  unfold upsertItem
  rw [if_pos h, List.map_map]
  refine List.map_congr_left (fun r _ => ?_)
  by_cases hk : sameKey r it <;> simp [Function.comp, hk, itemKey]

lemma upsert_keys_new (nid : UUID) (now : Int) (it : DigestItem)
    (rows : List ItemRow) (h : rows.any (fun r => sameKey r it) = false) :
    (upsertItem nid now it rows).map itemKey =
      rows.map itemKey ++ [(it.sourceId, it.externalId)] := by
  unfold upsertItem
  rw [if_neg (by simp [h])]
  simp [itemKey]

lemma upsert_preserves_keyNodup (nid : UUID) (now : Int) (it : DigestItem)
    (rows : List ItemRow) (h : keyNodup rows) :
    keyNodup (upsertItem nid now it rows) := by
  by_cases hc : rows.any (fun r => sameKey r it)
  · unfold keyNodup
    rw [upsert_keys_conflict nid now it rows hc]
    exact h
  · have hc' : rows.any (fun r => sameKey r it) = false := by simpa using hc
    unfold keyNodup
    rw [upsert_keys_new nid now it rows hc']
    refine List.Nodup.append h (List.nodup_singleton _) ?_
    intro k hk1 hk2
    rw [List.mem_singleton] at hk2
    subst hk2
    obtain ⟨r, hr, hkey⟩ := List.mem_map.mp hk1
    have : sameKey r it = true := (sameKey_iff r it).mpr hkey
    rw [List.any_eq_false] at hc'
    exact absurd this (by simpa using hc' r hr)

lemma applyUpserts_preserves_keyNodup (ops : List (UUID × Int × DigestItem))
    (rows : List ItemRow) (h : keyNodup rows) :
    keyNodup (applyUpserts ops rows) := by
  induction ops generalizing rows with
  | nil => exact h
  | cons op rest ih =>
      exact ih (upsertItem op.1 op.2.1 op.2.2 rows)
        (upsert_preserves_keyNodup op.1 op.2.1 op.2.2 rows h)

lemma keyNodup_filter_le_one (rows : List ItemRow) (h : keyNodup rows)
    (k : UUID × String) :
    (rows.filter (fun r => itemKey r == k)).length ≤ 1 := by
  induction rows with
  | nil => simp
  | cons r t ih =>
      unfold keyNodup at h
      simp only [List.map_cons, List.nodup_cons] at h
      obtain ⟨hnotin, ht⟩ := h
      rw [List.filter_cons]
      by_cases hk : itemKey r == k
      · have hkeq : itemKey r = k := by simpa using hk
        have hempty : t.filter (fun r => itemKey r == k) = [] := by
          rw [List.filter_eq_nil_iff]
          intro x hx hxk
          have hxeq : itemKey x = k := by simpa using hxk
          apply hnotin
          rw [hkeq, ← hxeq]
          exact List.mem_map_of_mem itemKey hx
        simp [hk, hempty]
      · simpa [hk] using ih ht

lemma upsert_conflict_overwrites (nid : UUID) (now : Int) (it : DigestItem)
    (rows : List ItemRow)
    (hex : ∃ r ∈ rows, itemKey r = (it.sourceId, it.externalId)) :
    (upsertItem nid now it rows).length = rows.length ∧
      ∀ r ∈ upsertItem nid now it rows,
        itemKey r = (it.sourceId, it.externalId) →
          r.title = it.title ∧ r.content = it.content ∧
          r.contentHash = it.contentHash ∧ r.metadata = it.metadata ∧
          r.externalUrl = it.externalUrl ∧
          r.externalUpdatedAt = it.externalUpdatedAt ∧ r.fetchedAt = now := by
  obtain ⟨r0, hr0, hkey0⟩ := hex
  have hany : rows.any (fun r => sameKey r it) = true :=
    List.any_eq_true.mpr ⟨r0, hr0, (sameKey_iff r0 it).mpr hkey0⟩
  constructor
  · unfold upsertItem
    rw [if_pos hany, List.length_map]
  · intro r hr hkey
    unfold upsertItem at hr
    rw [if_pos hany] at hr
    obtain ⟨r1, hr1, heq⟩ := List.mem_map.mp hr
    by_cases hk1 : sameKey r1 it
    · rw [if_pos hk1] at heq
      subst heq
      simp
    · rw [if_neg hk1] at heq
      subst heq
      exact absurd ((sameKey_iff r1 it).mpr hkey) hk1

/-- C8: upsert is idempotent on the `(source_id, external_id)` key — any
sequence of upserts preserves the key-uniqueness invariant, so at most one
stored row exists per key; and an upsert whose key already exists keeps the
table size unchanged and overwrites the stored title, content, content hash,
metadata, external URL, external update time and fetch time of the row with
that key, instead of creating a duplicate. -/
theorem item_upsert_idempotent_key
    (rows : List ItemRow) (ops : List (UUID × Int × DigestItem))
    (nid : UUID) (now : Int) (it : DigestItem)
    (h : keyNodup rows) :
    keyNodup (applyUpserts ops rows) ∧
    (∀ k, ((applyUpserts ops rows).filter (fun r => itemKey r == k)).length ≤ 1) ∧
    ((∃ r ∈ rows, itemKey r = (it.sourceId, it.externalId)) →
      (upsertItem nid now it rows).length = rows.length ∧
      ∀ r ∈ upsertItem nid now it rows,
        itemKey r = (it.sourceId, it.externalId) →
          r.title = it.title ∧ r.content = it.content ∧
          r.contentHash = it.contentHash ∧ r.metadata = it.metadata ∧
          r.externalUrl = it.externalUrl ∧
          r.externalUpdatedAt = it.externalUpdatedAt ∧ r.fetchedAt = now) := by
  have hnodup := applyUpserts_preserves_keyNodup ops rows h
  exact ⟨hnodup, fun k => keyNodup_filter_le_one _ hnodup k,
    fun hex => upsert_conflict_overwrites nid now it rows hex⟩

/-- Witness for `item_upsert_idempotent_key`: re-upserting the key
`(1, "A")` over a one-row table keeps one row and overwrites its fields. -/
theorem item_upsert_idempotent_key_witness :
    (upsertItem 99 50
        ⟨1, "A", "jira_issue", some "new", [], "h_new", [], none, none, none⟩
        [⟨7, 1, "A", "jira_issue", some "old", [], "h_old", [], none, none, none, 0⟩]).length
      = 1 :=
  ((item_upsert_idempotent_key
      [⟨7, 1, "A", "jira_issue", some "old", [], "h_old", [], none, none, none, 0⟩]
      [] 99 50
      ⟨1, "A", "jira_issue", some "new", [], "h_new", [], none, none, none⟩
      (by simp [keyNodup])).2.2
    ⟨⟨7, 1, "A", "jira_issue", some "old", [], "h_old", [], none, none, none, 0⟩,
      List.mem_singleton_self _, rfl⟩).1

lemma moreRecent_asymm (a b : Option Int) (h : moreRecent a b = true) :
    moreRecent b a = false := by
  cases a <;> cases b <;> simp [moreRecent] at * <;> omega

lemma moreRecent_irrefl (a : Option Int) : moreRecent a a = false := by
  cases a <;> simp [moreRecent]

lemma moreRecent_neg_trans (a b c : Option Int) (h1 : moreRecent a b = false)
    (h2 : moreRecent b c = false) : moreRecent a c = false := by
  cases a <;> cases b <;> cases c <;> simp [moreRecent] at * <;> omega

lemma pickLatest_cons (x : String × Option Int) (rest : List (String × Option Int)) :
    pickLatest (x :: rest) =
      match pickLatest rest with
      | none => some x
      | some b => if moreRecent b.2 x.2 then some b else some x :=
  rfl

lemma pickLatest_ne_none (x : String × Option Int) (t : List (String × Option Int)) :
    pickLatest (x :: t) ≠ none := by
  rw [pickLatest_cons]
  cases pickLatest t with
  | none => simp
  | some b => by_cases hm : moreRecent b.2 x.2 <;> simp [hm]

lemma pickLatest_spec (l : List (String × Option Int)) (e : String × Option Int)
    (h : pickLatest l = some e) :
    e ∈ l ∧ ∀ e2 ∈ l, moreRecent e2.2 e.2 = false := by
  induction l generalizing e with
  | nil => simp [pickLatest] at h
  | cons x rest ih =>
      rw [pickLatest_cons] at h
      cases hr : pickLatest rest with
      | none =>
          rw [hr] at h
          dsimp only at h
          cases h
          have hrest : rest = [] := by
            cases rest with
            | nil => rfl
            | cons y t => exact absurd hr (pickLatest_ne_none y t)
          subst hrest
          refine ⟨List.mem_singleton_self _, ?_⟩
          intro e2 he2
          rw [List.mem_singleton] at he2
          subst he2
          exact moreRecent_irrefl _
      | some b =>
          rw [hr] at h
          dsimp only at h
          obtain ⟨hb_mem, hb_max⟩ := ih b hr
          by_cases hmb : moreRecent b.2 x.2
          · rw [if_pos hmb] at h
            cases h
            refine ⟨List.mem_cons_of_mem _ hb_mem, ?_⟩
            intro e2 he2
            rcases List.mem_cons.mp he2 with h2 | h2
            · subst h2
              exact moreRecent_asymm _ _ hmb
            · exact hb_max e2 h2
          · rw [if_neg hmb] at h
            cases h
            refine ⟨List.mem_cons_self _ _, ?_⟩
            intro e2 he2
            rcases List.mem_cons.mp he2 with h2 | h2
            · subst h2
              exact moreRecent_irrefl _
            · exact moreRecent_neg_trans _ _ _ (hb_max e2 h2) (by simpa using hmb)

/-- C1: the changed-item query returns exactly the items of the source that
either have no ledger entry tied to a sent digest, or whose current content
hash differs from the hash recorded in their most recent sent-digest ledger
entry (the entry the `DISTINCT ON`/`ORDER BY sent_at DESC` subquery keeps,
shown maximal here); in particular an item whose most recent sent-digest
entry recorded hash `H` is returned exactly when its current hash is no
longer `H`. -/
theorem changed_query_spec (db : Db) (S : UUID) (i : ItemRow) :
    (i ∈ get_changed_since_last_digest db S ↔
      i ∈ db.items ∧ i.sourceId = S ∧
        ∀ e, pickLatest (sentEntriesFor db i.id) = some e → i.contentHash ≠ e.1) ∧
    (∀ e, pickLatest (sentEntriesFor db i.id) = some e →
      e ∈ sentEntriesFor db i.id ∧
        ∀ e2 ∈ sentEntriesFor db i.id, moreRecent e2.2 e.2 = false) ∧
    (sentEntriesFor db i.id = [] →
      (i ∈ get_changed_since_last_digest db S ↔ i ∈ db.items ∧ i.sourceId = S)) ∧
    (∀ H t, pickLatest (sentEntriesFor db i.id) = some (H, t) →
      i ∈ db.items → i.sourceId = S →
      (i ∈ get_changed_since_last_digest db S ↔ i.contentHash ≠ H)) := by
  refine ⟨?_, ?_, ?_, ?_⟩
  · cases hpl : pickLatest (sentEntriesFor db i.id) with
    | none => simp [get_changed_since_last_digest, List.mem_filter, hpl]
    | some e0 => simp [get_changed_since_last_digest, List.mem_filter, hpl, and_assoc]
  · intro e he
    exact pickLatest_spec _ e he
  · intro hse
    have hpl : pickLatest (sentEntriesFor db i.id) = none := by rw [hse]; rfl
    simp [get_changed_since_last_digest, List.mem_filter, hpl]
  · intro H t hpl hin hsrc
    simp [get_changed_since_last_digest, List.mem_filter, hpl, hin, hsrc]

/-- Witness for `changed_query_spec`: an item of source 5 shown in a sent
digest with hash `h1` and currently hashing `h2` is in the changed set. -/
theorem changed_query_spec_witness :
    (⟨1, 5, "X-1", "jira_issue", none, [], "h2", [], none, none, none, 0⟩ : ItemRow) ∈
      get_changed_since_last_digest
        ⟨[], [⟨1, 5, "X-1", "jira_issue", none, [], "h2", [], none, none, none, 0⟩],
          [⟨10, "daily", "sent", none, some 100, none, none, 1, none⟩],
          [⟨10, 1, "h1"⟩], []⟩ 5 :=
  ((changed_query_spec
      ⟨[], [⟨1, 5, "X-1", "jira_issue", none, [], "h2", [], none, none, none, 0⟩],
        [⟨10, "daily", "sent", none, some 100, none, none, 1, none⟩],
        [⟨10, 1, "h1"⟩], []⟩ 5
      ⟨1, 5, "X-1", "jira_issue", none, [], "h2", [], none, none, none, 0⟩).2.2.2
    "h1" (some 100) rfl (List.mem_singleton_self _) rfl).mpr (by decide)

/-! ## Digest orchestration (`DigestService.generate_digest`) -/

/-- Domain events (`axela.domain.events`) published on the bus by the
orchestrator. -/
inductive Ev where
  | collectionStarted (sourceId digestId : UUID)
  | collectionCompleted (sourceId digestId : UUID) (itemsCount newItemsCount : Nat)
  | collectorFailed (sourceId : UUID) (errorType errorMessage : String)
  | digestReady (digestId : UUID) (content : String) (itemCount : Nat)
  | digestFailed (digestId : UUID) (errorMessage : String)
  deriving Repr, DecidableEq

/-- Does an event carry the `DigestReady` type. -/
def isDigestReadyEv : Ev → Bool
  | .digestReady _ _ _ => true
  | _ => false

/-- Mutable state threaded through one digest generation: the database, the
events published on the bus so far, a fresh-id counter standing for the
generated UUIDs, and the current time. -/
structure World where
  db : Db
  events : List Ev
  nextId : UUID
  now : Int
  deriving Repr

/-- Outcome of one `collector.collect(...)` call: the fetched items, a
`CollectorError` of the taxonomy (carrying its `error_type` tag and message),
or an unexpected exception. -/
inductive CollectOutcome where
  | ok (items : List DigestItem)
  | errCollector (errorType errorMessage : String)
  | errUnexpected (errorMessage : String)
  deriving Repr

/-- Call sites of the orchestration-level repository and formatter calls of
`generate_digest` that lie outside the per-source error boundary. -/
inductive RepoOp where
  | updateCollecting
  | getActive
  | updateSentEmpty
  | updateFormatting
  | formatDigest
  | addItems
  deriving Repr, DecidableEq

/-- The orchestrator's environment: which source types have a collector in
the registry, what each source's `collect` call does, what the external
formatter renders, and which orchestration-level calls raise (the fault
oracle returning the exception text `str(e)`). -/
structure OrchEnv where
  registered : String → Bool
  collect : UUID → CollectOutcome
  formatted : String
  repoFail : RepoOp → Option String

/-- Publish an event on the in-memory bus. -/
def publishEv (w : World) (e : Ev) : World :=
  { w with events := w.events ++ [e] }

/-- Embedding of `DigestRepositoryImpl.update_status`: set the digest's
status and error message (the latter is overwritten even when `None`). -/
def updateDigestStatus (w : World) (digestId : UUID) (status : String)
    (errorMessage : Option String) : World :=
  { w with db := { w.db with
      digests := w.db.digests.map (fun d =>
        if d.id == digestId then
          { d with status := status, errorMessage := errorMessage }
        else d) } }

/-- Embedding of `DigestRepositoryImpl.create`: append a new digest row in
status `pending` with the default `item_count = 0`. -/
def createDigestRow (w : World) (digestType : String) : World :=
  { w with
    db := { w.db with
      digests := w.db.digests ++
        [{ id := w.nextId
           digestType := digestType
           status := "pending"
           scheduledAt := some w.now
           sentAt := none
           telegramMessageId := none
           content := none
           itemCount := 0
           errorMessage := none }] }
    nextId := w.nextId + 1 }

/-- Embedding of `ItemRepositoryImpl.upsert_many`: upsert each collected item
in order, consuming one fresh id per item. -/
def upsertManyItems (w : World) (items : List DigestItem) : World :=
  items.foldl (fun w it =>
    { w with
      db := { w.db with items := upsertItem w.nextId w.now it w.db.items }
      nextId := w.nextId + 1 }) w

/-- Embedding of `SourceRepositoryImpl.update_last_synced`. -/
def updateLastSynced (w : World) (sourceId : UUID) : World :=
  { w with db := { w.db with
      sources := w.db.sources.map (fun s =>
        if s.id == sourceId then { s with lastSyncedAt := some w.now } else s) } }

/-- Embedding of `CollectorErrorRepositoryImpl.mark_all_resolved`. -/
def markAllResolved (w : World) (sourceId : UUID) : World :=
  { w with db := { w.db with
      errors := w.db.errors.map (fun e =>
        if e.sourceId == sourceId && !e.resolved then
          { e with resolved := true }
        else e) } }

/-- Embedding of `CollectorErrorRepositoryImpl.create`. -/
def recordCollectorError (w : World) (sourceId : UUID)
    (errorType errorMessage : String) : World :=
  { w with db := { w.db with
      errors := w.db.errors ++ [⟨sourceId, errorType, errorMessage, false⟩] } }

/-- Embedding of `DigestService._collect_from_source`: publish
`CollectionStarted`; a missing collector is a soft no-op; on success store
the items, update the sync time, resolve old errors, compute the changed set
and publish `CollectionCompleted`; a `CollectorError` or unexpected exception
is caught here — recorded as a Collector-Error row with its kind and message,
announced via `CollectorFailed` — and yields no items. -/
def collectFromSource (env : OrchEnv) (w : World) (digestId : UUID) (s : Source) :
    List ItemRow × World :=
  let w := publishEv w (.collectionStarted s.id digestId)
  if !(env.registered s.sourceType) then ([], w)
  else
    match env.collect s.id with
    | .ok items =>
        let w := upsertManyItems w items
        let w := updateLastSynced w s.id
        let w := markAllResolved w s.id
        let changed := get_changed_since_last_digest w.db s.id
        let w := publishEv w
          (.collectionCompleted s.id digestId items.length changed.length)
        (changed, w)
    | .errCollector t m =>
        let w := recordCollectorError w s.id t m
        let w := publishEv w (.collectorFailed s.id t m)
        ([], w)
    | .errUnexpected m =>
        let w := recordCollectorError w s.id "unexpected" m
        let w := publishEv w (.collectorFailed s.id "unexpected" m)
        ([], w)

/-- The sequential per-source loop of `generate_digest`, accumulating
`(item, source id)` pairs. -/
def collectLoop (env : OrchEnv) (w : World) (digestId : UUID) :
    List Source → List (ItemRow × UUID) × World
  | [] => ([], w)
  | s :: rest =>
      let r1 := collectFromSource env w digestId s
      let r2 := collectLoop env r1.2 digestId rest
      (r1.1.map (fun i => (i, s.id)) ++ r2.1, r2.2)

/-- Consult the fault oracle at an orchestration-level call site. -/
def repoCheck (env : OrchEnv) (op : RepoOp) : Except String Unit :=
  match env.repoFail op with
  | some m => .error m
  | none => .ok ()

/-- Embedding of `DigestRepositoryImpl.add_items`: append one shown-item
ledger entry per included item, recording its current content hash. -/
def addLedgerItems (w : World) (digestId : UUID)
    (allItems : List (ItemRow × UUID)) : World :=
  { w with db := { w.db with
      ledger := w.db.ledger ++
        allItems.map (fun p => ⟨digestId, p.1.id, p.1.contentHash⟩) } }

/-- The try-block of `generate_digest` (steps after the digest row exists):
move to `collecting`, resolve the candidate sources, run the per-source loop,
and either finish directly as `sent` when no items changed, or move to
`formatting`, publish `DigestReady` and persist the ledger. Any raising
orchestration-level call aborts the block with the exception text. -/
def tryGenerate (env : OrchEnv) (w : World) (digestId : UUID)
    (projectIds : Option (List UUID)) : Except String Unit × World :=
  match repoCheck env .updateCollecting with
  | .error m => (.error m, w)
  | .ok _ =>
      let w := updateDigestStatus w digestId "collecting" none
      match repoCheck env .getActive with
      | .error m => (.error m, w)
      | .ok _ =>
          let sources := getSourcesForDigest w.db.sources projectIds
          let r := collectLoop env w digestId sources
          if r.1.isEmpty then
            match repoCheck env .updateSentEmpty with
            | .error m => (.error m, r.2)
            | .ok _ => (.ok (), updateDigestStatus r.2 digestId "sent" none)
          else
            match repoCheck env .updateFormatting with
            | .error m => (.error m, r.2)
            | .ok _ =>
                let w := updateDigestStatus r.2 digestId "formatting" none
                match repoCheck env .formatDigest with
                | .error m => (.error m, w)
                | .ok _ =>
                    let w := publishEv w
                      (.digestReady digestId env.formatted r.1.length)
                    match repoCheck env .addItems with
                    | .error m => (.error m, w)
                    | .ok _ => (.ok (), addLedgerItems w digestId r.1)

/-- Embedding of `DigestService.generate_digest`: create the digest row, run
the try-block, and on any escaping exception transition the digest to
`failed` with the exception text, publish `DigestFailed` and re-raise. -/
def generateDigest (env : OrchEnv) (w : World) (digestType : String)
    (projectIds : Option (List UUID)) : Except String UUID × World :=
  let digestId := w.nextId
  let w := createDigestRow w digestType
  match tryGenerate env w digestId projectIds with
  | (.ok _, w1) => (.ok digestId, w1)
  | (.error m, w1) =>
      let w2 := updateDigestStatus w1 digestId "failed" (some m)
      let w3 := publishEv w2 (.digestFailed digestId m)
      (.error m, w3)

/-- The collection phase of one generation: digest row created, status moved
to `collecting`, per-source loop run over the candidate sources. Its first
component is the merged changed-item set of the generation. -/
def collectPhase (env : OrchEnv) (w : World) (digestType : String)
    (projectIds : Option (List UUID)) : List (ItemRow × UUID) × World :=
  let digestId := w.nextId
  let w := createDigestRow w digestType
  let w := updateDigestStatus w digestId "collecting" none
  collectLoop env w digestId (getSourcesForDigest w.db.sources projectIds)

/-- Lookup of a digest row by id (`DigestRepositoryImpl.get_by_id`). -/
def findDigest (w : World) (digestId : UUID) : Option DigestRow :=
  w.db.digests.find? (fun d => d.id == digestId)

lemma upsertManyItems_frame (items : List DigestItem) :
    ∀ w : World, (upsertManyItems w items).events = w.events ∧
      (upsertManyItems w items).db.digests = w.db.digests ∧
      (upsertManyItems w items).db.ledger = w.db.ledger := by
  induction items with
  | nil => intro w; exact ⟨rfl, rfl, rfl⟩
  | cons it rest ih =>
      intro w
      have h := ih { w with
        db := { w.db with items := upsertItem w.nextId w.now it w.db.items }
        nextId := w.nextId + 1 }
      simpa [upsertManyItems, List.foldl] using h

lemma publishEv_events (w : World) (e : Ev) :
    (publishEv w e).events = w.events ++ [e] := rfl

lemma publishEv_db (w : World) (e : Ev) : (publishEv w e).db = w.db := rfl

lemma updateLastSynced_events (w : World) (sid : UUID) :
    (updateLastSynced w sid).events = w.events := rfl

lemma updateLastSynced_digests (w : World) (sid : UUID) :
    (updateLastSynced w sid).db.digests = w.db.digests := rfl

lemma updateLastSynced_ledger (w : World) (sid : UUID) :
    (updateLastSynced w sid).db.ledger = w.db.ledger := rfl

lemma markAllResolved_events (w : World) (sid : UUID) :
    (markAllResolved w sid).events = w.events := rfl

lemma markAllResolved_digests (w : World) (sid : UUID) :
    (markAllResolved w sid).db.digests = w.db.digests := rfl

lemma markAllResolved_ledger (w : World) (sid : UUID) :
    (markAllResolved w sid).db.ledger = w.db.ledger := rfl

lemma recordCollectorError_events (w : World) (sid : UUID) (t m : String) :
    (recordCollectorError w sid t m).events = w.events := rfl

lemma recordCollectorError_digests (w : World) (sid : UUID) (t m : String) :
    (recordCollectorError w sid t m).db.digests = w.db.digests := rfl

lemma recordCollectorError_ledger (w : World) (sid : UUID) (t m : String) :
    (recordCollectorError w sid t m).db.ledger = w.db.ledger := rfl

lemma recordCollectorError_errors (w : World) (sid : UUID) (t m : String) :
    (recordCollectorError w sid t m).db.errors =
      w.db.errors ++ [⟨sid, t, m, false⟩] := rfl

lemma recordCollectorError_items (w : World) (sid : UUID) (t m : String) :
    (recordCollectorError w sid t m).db.items = w.db.items := rfl

lemma collectFromSource_errC (env : OrchEnv) (w : World) (digestId : UUID)
    (s : Source) (t m : String)
    (hreg : env.registered s.sourceType = true)
    (hc : env.collect s.id = .errCollector t m) :
    collectFromSource env w digestId s =
      ([], publishEv (recordCollectorError
        (publishEv w (.collectionStarted s.id digestId)) s.id t m)
        (.collectorFailed s.id t m)) := by
  unfold collectFromSource
  rw [hreg, hc]
  rfl

lemma collectFromSource_errU (env : OrchEnv) (w : World) (digestId : UUID)
    (s : Source) (m : String)
    (hreg : env.registered s.sourceType = true)
    (hc : env.collect s.id = .errUnexpected m) :
    collectFromSource env w digestId s =
      ([], publishEv (recordCollectorError
        (publishEv w (.collectionStarted s.id digestId)) s.id "unexpected" m)
        (.collectorFailed s.id "unexpected" m)) := by
  unfold collectFromSource
  rw [hreg, hc]
  rfl

lemma collectFromSource_run (env : OrchEnv) (w : World) (digestId : UUID)
    (s : Source) (items : List DigestItem)
    (hreg : env.registered s.sourceType = true)
    (hc : env.collect s.id = .ok items) :
    collectFromSource env w digestId s =
      (get_changed_since_last_digest (markAllResolved (updateLastSynced
          (upsertManyItems (publishEv w (.collectionStarted s.id digestId)) items)
          s.id) s.id).db s.id,
        publishEv (markAllResolved (updateLastSynced (upsertManyItems (publishEv w
            (.collectionStarted s.id digestId)) items) s.id) s.id)
          (.collectionCompleted s.id digestId items.length
            (get_changed_since_last_digest (markAllResolved (updateLastSynced
              (upsertManyItems (publishEv w (.collectionStarted s.id digestId))
                items) s.id) s.id).db s.id).length)) := by
  unfold collectFromSource
  rw [hreg, hc]
  rfl

lemma collectFromSource_unregistered (env : OrchEnv) (w : World) (digestId : UUID)
    (s : Source) (hreg : env.registered s.sourceType = false) :
    collectFromSource env w digestId s =
      ([], publishEv w (.collectionStarted s.id digestId)) := by
  unfold collectFromSource
  rw [hreg]
  rfl

lemma collectFromSource_frame (env : OrchEnv) (w : World) (digestId : UUID)
    (s : Source) :
    (collectFromSource env w digestId s).2.db.digests = w.db.digests ∧
    (collectFromSource env w digestId s).2.db.ledger = w.db.ledger ∧
    ∃ tail, (collectFromSource env w digestId s).2.events =
        w.events ++ (Ev.collectionStarted s.id digestId :: tail) ∧
      ∀ e ∈ tail, isDigestReadyEv e = false := by
  by_cases hreg : env.registered s.sourceType
  · cases hc : env.collect s.id with
    | ok items =>
        obtain ⟨he, hd, hl⟩ :=
          upsertManyItems_frame items (publishEv w (.collectionStarted s.id digestId))
        rw [collectFromSource_run env w digestId s items hreg hc]
        refine ⟨?_, ?_, ?_⟩
        · rw [publishEv_db, markAllResolved_digests, updateLastSynced_digests, hd,
            publishEv_db]
        · rw [publishEv_db, markAllResolved_ledger, updateLastSynced_ledger, hl,
            publishEv_db]
        · refine ⟨[Ev.collectionCompleted s.id digestId items.length
            (get_changed_since_last_digest (markAllResolved (updateLastSynced
              (upsertManyItems (publishEv w (.collectionStarted s.id digestId))
                items) s.id) s.id).db s.id).length], ?_, ?_⟩
          · rw [publishEv_events, markAllResolved_events, updateLastSynced_events,
              he, publishEv_events, List.append_assoc]
            rfl
          · intro e hme
            rw [List.mem_singleton] at hme
            subst hme
            rfl
    | errCollector t m =>
        rw [collectFromSource_errC env w digestId s t m hreg hc]
        refine ⟨rfl, rfl, ⟨[Ev.collectorFailed s.id t m], ?_, ?_⟩⟩
        · rw [publishEv_events, recordCollectorError_events, publishEv_events,
            List.append_assoc]
          rfl
        · intro e hme
          rw [List.mem_singleton] at hme
          subst hme
          rfl
    | errUnexpected m =>
        rw [collectFromSource_errU env w digestId s m hreg hc]
        refine ⟨rfl, rfl, ⟨[Ev.collectorFailed s.id "unexpected" m], ?_, ?_⟩⟩
        · rw [publishEv_events, recordCollectorError_events, publishEv_events,
            List.append_assoc]
          rfl
        · intro e hme
          rw [List.mem_singleton] at hme
          subst hme
          rfl
  · rw [collectFromSource_unregistered env w digestId s (by simpa using hreg)]
    exact ⟨rfl, rfl, ⟨[], publishEv_events w _, by simp⟩⟩

lemma collectLoop_frame (env : OrchEnv) (digestId : UUID) :
    ∀ (ss : List Source) (w : World),
      (collectLoop env w digestId ss).2.db.digests = w.db.digests ∧
      (collectLoop env w digestId ss).2.db.ledger = w.db.ledger ∧
      ∃ tail, (collectLoop env w digestId ss).2.events = w.events ++ tail ∧
        ∀ e ∈ tail, isDigestReadyEv e = false := by
  intro ss
  induction ss with
  | nil => intro w; exact ⟨rfl, rfl, [], by simp [collectLoop], by simp⟩
  | cons s rest ih =>
      intro w
      obtain ⟨hd1, hl1, t1, he1, hne1⟩ := collectFromSource_frame env w digestId s
      obtain ⟨hd2, hl2, t2, he2, hne2⟩ := ih (collectFromSource env w digestId s).2
      refine ⟨?_, ?_, Ev.collectionStarted s.id digestId :: t1 ++ t2, ?_, ?_⟩
      · simpa [collectLoop, hd2] using hd1
      · simpa [collectLoop, hl2] using hl1
      · simp only [collectLoop]
        rw [he2, he1]
        simp
      · intro e hme
        rcases List.mem_cons.mp hme with h2 | h2
        · subst h2; rfl
        · rcases List.mem_append.mp h2 with h3 | h3
          · exact hne1 e h3
          · exact hne2 e h3

lemma collectLoop_started (env : OrchEnv) (digestId : UUID) :
    ∀ (ss : List Source) (w : World) (s2 : Source), s2 ∈ ss →
      Ev.collectionStarted s2.id digestId ∈
        (collectLoop env w digestId ss).2.events := by
  intro ss
  induction ss with
  | nil => intro w s2 hmem; simp at hmem
  | cons s rest ih =>
      intro w s2 hmem
      obtain ⟨_, _, t1, he1, _⟩ := collectFromSource_frame env w digestId s
      obtain ⟨_, _, t2, he2, _⟩ :=
        collectLoop_frame env digestId rest (collectFromSource env w digestId s).2
      rcases List.mem_cons.mp hmem with h2 | h2
      · subst h2
        simp only [collectLoop]
        rw [he2, he1]
        simp
      · simpa [collectLoop] using ih (collectFromSource env w digestId s).2 s2 h2

/-- C2: a `CollectorError` or unexpected exception raised while collecting
from one source is caught at the per-source boundary: a Collector-Error row
with the error's kind and message is appended, a `CollectorFailed` event with
that kind and message is published, the failing source stores and contributes
no items — and the loop proceeds: the generation's result continues with the
remaining sources exactly as from the post-failure state, and every source of
the candidate list still receives its `CollectionStarted` event. -/
theorem per_source_failure_isolation
    (env : OrchEnv) (w : World) (digestId : UUID) (s s2 : Source)
    (rest sources : List Source) (t m : String)
    (hreg : env.registered s.sourceType = true) :
    (env.collect s.id = .errCollector t m →
      (collectFromSource env w digestId s).1 = [] ∧
      (collectFromSource env w digestId s).2.db.errors =
        w.db.errors ++ [⟨s.id, t, m, false⟩] ∧
      (collectFromSource env w digestId s).2.db.items = w.db.items ∧
      (collectFromSource env w digestId s).2.events =
        w.events ++ [.collectionStarted s.id digestId, .collectorFailed s.id t m] ∧
      collectLoop env w digestId (s :: rest) =
        collectLoop env (collectFromSource env w digestId s).2 digestId rest) ∧
    (env.collect s.id = .errUnexpected m →
      (collectFromSource env w digestId s).1 = [] ∧
      (collectFromSource env w digestId s).2.db.errors =
        w.db.errors ++ [⟨s.id, "unexpected", m, false⟩] ∧
      (collectFromSource env w digestId s).2.db.items = w.db.items ∧
      (collectFromSource env w digestId s).2.events =
        w.events ++ [.collectionStarted s.id digestId,
          .collectorFailed s.id "unexpected" m] ∧
      collectLoop env w digestId (s :: rest) =
        collectLoop env (collectFromSource env w digestId s).2 digestId rest) ∧
    (s2 ∈ sources →
      Ev.collectionStarted s2.id digestId ∈
        (collectLoop env w digestId sources).2.events) := by
  refine ⟨?_, ?_, fun hmem => collectLoop_started env digestId sources w s2 hmem⟩
  · intro hc
    have hres := collectFromSource_errC env w digestId s t m hreg hc
    refine ⟨by rw [hres], ?_, by rw [hres]; rfl, ?_, ?_⟩
    · rw [hres, publishEv_db, recordCollectorError_errors, publishEv_db]
    · rw [hres, publishEv_events, recordCollectorError_events, publishEv_events,
        List.append_assoc]
      rfl
    · simp only [collectLoop, hres]
      simp
  · intro hc
    have hres := collectFromSource_errU env w digestId s m hreg hc
    refine ⟨by rw [hres], ?_, by rw [hres]; rfl, ?_, ?_⟩
    · rw [hres, publishEv_db, recordCollectorError_errors, publishEv_db]
    · rw [hres, publishEv_events, recordCollectorError_events, publishEv_events,
        List.append_assoc]
      rfl
    · simp only [collectLoop, hres]
      simp

/-- Witness for `per_source_failure_isolation`: a source failing with an
`AuthenticationError` contributes no items, and the other source of the
generation still gets its `CollectionStarted` event. -/
theorem per_source_failure_isolation_witness :
    (collectFromSource
        ⟨fun _ => true,
          fun sid => if sid = 21 then
            CollectOutcome.errCollector "auth" "Authentication failed"
          else CollectOutcome.ok [], "", fun _ => none⟩
        ⟨⟨[], [], [], [], []⟩, [], 100, 0⟩ 7
        ⟨21, 1, "jira", "J", true, none⟩).1 = [] ∧
    Ev.collectionStarted 22 7 ∈
      (collectLoop
        ⟨fun _ => true,
          fun sid => if sid = 21 then
            CollectOutcome.errCollector "auth" "Authentication failed"
          else CollectOutcome.ok [], "", fun _ => none⟩
        ⟨⟨[], [], [], [], []⟩, [], 100, 0⟩ 7
        [⟨21, 1, "jira", "J", true, none⟩,
          ⟨22, 1, "gmail", "G", true, none⟩]).2.events :=
  ⟨((per_source_failure_isolation
      ⟨fun _ => true,
        fun sid => if sid = 21 then
          CollectOutcome.errCollector "auth" "Authentication failed"
        else CollectOutcome.ok [], "", fun _ => none⟩
      ⟨⟨[], [], [], [], []⟩, [], 100, 0⟩ 7
      ⟨21, 1, "jira", "J", true, none⟩ ⟨22, 1, "gmail", "G", true, none⟩
      [] [] "auth" "Authentication failed" rfl).1 rfl).1,
    (per_source_failure_isolation
      ⟨fun _ => true,
        fun sid => if sid = 21 then
          CollectOutcome.errCollector "auth" "Authentication failed"
        else CollectOutcome.ok [], "", fun _ => none⟩
      ⟨⟨[], [], [], [], []⟩, [], 100, 0⟩ 7
      ⟨21, 1, "jira", "J", true, none⟩ ⟨22, 1, "gmail", "G", true, none⟩
      [] [⟨21, 1, "jira", "J", true, none⟩, ⟨22, 1, "gmail", "G", true, none⟩]
      "auth" "Authentication failed" rfl).2.2 (by simp)⟩

lemma updateDigestStatus_events (w : World) (i : UUID) (st : String)
    (em : Option String) : (updateDigestStatus w i st em).events = w.events := rfl

lemma updateDigestStatus_ledger (w : World) (i : UUID) (st : String)
    (em : Option String) :
    (updateDigestStatus w i st em).db.ledger = w.db.ledger := rfl

lemma createDigestRow_events (w : World) (dt : String) :
    (createDigestRow w dt).events = w.events := rfl

lemma createDigestRow_ledger (w : World) (dt : String) :
    (createDigestRow w dt).db.ledger = w.db.ledger := rfl

lemma createDigestRow_digests (w : World) (dt : String) :
    (createDigestRow w dt).db.digests = w.db.digests ++
      [{ id := w.nextId
         digestType := dt
         status := "pending"
         scheduledAt := some w.now
         sentAt := none
         telegramMessageId := none
         content := none
         itemCount := 0
         errorMessage := none }] := rfl

lemma addLedgerItems_digests (w : World) (i : UUID)
    (allItems : List (ItemRow × UUID)) :
    (addLedgerItems w i allItems).db.digests = w.db.digests := rfl

lemma find?_append_right {α : Type} (p : α → Bool) (l1 l2 : List α)
    (h : ∀ x ∈ l1, p x = false) : (l1 ++ l2).find? p = l2.find? p := by
  induction l1 with
  | nil => simp
  | cons a t ih =>
      rw [List.cons_append,
        List.find?_cons_of_neg _ (by simp [h a (List.mem_cons_self a t)])]
      exact ih (fun x hx => h x (List.mem_cons_of_mem a hx))

lemma find?_map_conditional (l : List DigestRow) (i : UUID) (st : String)
    (em : Option String) :
    (l.map (fun d => if d.id == i then
        { d with status := st, errorMessage := em } else d)).find?
        (fun d => d.id == i) =
      (l.find? (fun d => d.id == i)).map
        (fun d => { d with status := st, errorMessage := em }) := by
  induction l with
  | nil => rfl
  | cons d t ih =>
      by_cases h : d.id == i
      · simp [List.find?, h]
      · simp only [List.map_cons, if_neg h]
        rw [List.find?_cons_of_neg _ (by simpa using h),
          List.find?_cons_of_neg _ (by simpa using h)]
        exact ih

lemma findDigest_update (w : World) (i : UUID) (st : String) (em : Option String) :
    findDigest (updateDigestStatus w i st em) i =
      (findDigest w i).map (fun d => { d with status := st, errorMessage := em }) := by
  unfold findDigest updateDigestStatus
  exact find?_map_conditional w.db.digests i st em

lemma findDigest_congr (w1 w2 : World) (i : UUID)
    (h : w1.db.digests = w2.db.digests) : findDigest w1 i = findDigest w2 i := by
  unfold findDigest
  rw [h]

lemma findDigest_publishEv (w : World) (e : Ev) (i : UUID) :
    findDigest (publishEv w e) i = findDigest w i := rfl

lemma updateDigestStatus_ids (w : World) (i : UUID) (st : String)
    (em : Option String) :
    (updateDigestStatus w i st em).db.digests.map (fun d => d.id) =
      w.db.digests.map (fun d => d.id) := by
  unfold updateDigestStatus
  rw [List.map_map]
  refine List.map_congr_left (fun d _ => ?_)
  by_cases h : d.id == i <;> simp [Function.comp, h]

lemma tryGenerate_ids (env : OrchEnv) (w : World) (digestId : UUID)
    (pids : Option (List UUID)) :
    (tryGenerate env w digestId pids).2.db.digests.map (fun d => d.id) =
      w.db.digests.map (fun d => d.id) := by
  have hloop : ∀ (w' : World) (srcs : List Source),
      (collectLoop env w' digestId srcs).2.db.digests = w'.db.digests :=
    fun w' srcs => (collectLoop_frame env digestId srcs w').1
  unfold tryGenerate repoCheck
  cases env.repoFail RepoOp.updateCollecting with
  | some m => rfl
  | none =>
      dsimp only
      cases env.repoFail RepoOp.getActive with
      | some m => exact updateDigestStatus_ids w digestId "collecting" none
      | none =>
          dsimp only
          by_cases hemp : (collectLoop env
              (updateDigestStatus w digestId "collecting" none) digestId
              (getSourcesForDigest
                (updateDigestStatus w digestId "collecting" none).db.sources
                pids)).1.isEmpty
          · rw [if_pos hemp]
            cases env.repoFail RepoOp.updateSentEmpty with
            | some m =>
                dsimp only
                rw [hloop, updateDigestStatus_ids]
            | none =>
                dsimp only
                rw [updateDigestStatus_ids]
                rw [hloop, updateDigestStatus_ids]
          · rw [if_neg hemp]
            cases env.repoFail RepoOp.updateFormatting with
            | some m =>
                dsimp only
                rw [hloop, updateDigestStatus_ids]
            | none =>
                dsimp only
                cases env.repoFail RepoOp.formatDigest with
                | some m =>
                    dsimp only
                    rw [updateDigestStatus_ids, hloop, updateDigestStatus_ids]
                | none =>
                    dsimp only
                    cases env.repoFail RepoOp.addItems with
                    | some m =>
                        dsimp only
                        rw [show ∀ (w' : World) (e : Ev), (publishEv w' e).db = w'.db
                            from fun _ _ => rfl,
                          updateDigestStatus_ids, hloop, updateDigestStatus_ids]
                    | none =>
                        dsimp only
                        rw [addLedgerItems_digests,
                          show ∀ (w' : World) (e : Ev), (publishEv w' e).db = w'.db
                            from fun _ _ => rfl,
                          updateDigestStatus_ids, hloop, updateDigestStatus_ids]

/-- C4: when the merged changed-item set of a generation is empty — in
particular when every source fails — `generate_digest` transitions the digest
directly to `sent`, leaves `item_count` at its default 0, returns the digest
id, publishes no `DigestReady` event and writes no shown-item ledger
entries. -/
theorem empty_digest_sent_spec
    (env : OrchEnv) (w : World) (dt : String) (pids : Option (List UUID))
    (h1 : env.repoFail .updateCollecting = none)
    (h2 : env.repoFail .getActive = none)
    (h3 : env.repoFail .updateSentEmpty = none)
    (hfresh : ∀ d ∈ w.db.digests, d.id ≠ w.nextId)
    (hempty : (collectPhase env w dt pids).1 = []) :
    (generateDigest env w dt pids).1 = .ok w.nextId ∧
    (∃ row, findDigest (generateDigest env w dt pids).2 w.nextId = some row ∧
      row.status = "sent" ∧ row.itemCount = 0 ∧ row.errorMessage = none) ∧
    (generateDigest env w dt pids).2.db.ledger = w.db.ledger ∧
    (∀ e ∈ (generateDigest env w dt pids).2.events,
      isDigestReadyEv e = true → e ∈ w.events) := by
  have hempty' : (collectLoop env
      (updateDigestStatus (createDigestRow w dt) w.nextId "collecting" none)
      w.nextId
      (getSourcesForDigest
        (updateDigestStatus (createDigestRow w dt) w.nextId "collecting" none).db.sources
        pids)).1 = [] := by
    simpa [collectPhase] using hempty
  obtain ⟨hld, hll, tail, hle, hlnr⟩ := collectLoop_frame env w.nextId
    (getSourcesForDigest
      (updateDigestStatus (createDigestRow w dt) w.nextId "collecting" none).db.sources
      pids)
    (updateDigestStatus (createDigestRow w dt) w.nextId "collecting" none)
  have hgen : generateDigest env w dt pids =
      (.ok w.nextId,
        updateDigestStatus (collectLoop env
          (updateDigestStatus (createDigestRow w dt) w.nextId "collecting" none)
          w.nextId
          (getSourcesForDigest
            (updateDigestStatus (createDigestRow w dt) w.nextId "collecting"
              none).db.sources pids)).2 w.nextId "sent" none) := by
    unfold generateDigest tryGenerate repoCheck
    rw [h1, h2]
    dsimp only
    rw [hempty', h3]
    rfl
  have hcreate : findDigest (createDigestRow w dt) w.nextId =
      some ⟨w.nextId, dt, "pending", some w.now, none, none, none, 0, none⟩ := by
    unfold findDigest
    rw [createDigestRow_digests,
      find?_append_right _ _ _ (fun d hd => by simpa using hfresh d hd)]
    simp [List.find?]
  refine ⟨by rw [hgen], ?_, ?_, ?_⟩
  · rw [hgen]
    dsimp only
    rw [findDigest_update,
      findDigest_congr _ _ _ hld,
      findDigest_update, hcreate]
    exact ⟨_, rfl, rfl, rfl, rfl⟩
  · rw [hgen]
    dsimp only
    rw [updateDigestStatus_ledger, hll, updateDigestStatus_ledger,
      createDigestRow_ledger]
  · rw [hgen]
    dsimp only
    rw [updateDigestStatus_events]
    intro e hme hready
    rw [hle, updateDigestStatus_events, createDigestRow_events] at hme
    rcases List.mem_append.mp hme with hml | hmr
    · exact hml
    · rw [hlnr e hmr] at hready
      cases hready

/-- Witness for `empty_digest_sent_spec`: a generation whose only active
source raises an `AuthenticationError` returns the digest id with the digest
row in status `sent` and `item_count = 0`. -/
theorem empty_digest_sent_spec_witness :
    (generateDigest
        ⟨fun _ => true,
          fun _ => CollectOutcome.errCollector "auth" "Authentication failed",
          "", fun _ => none⟩
        ⟨⟨[⟨21, 1, "jira", "J", true, none⟩], [], [], [], []⟩, [], 0, 0⟩
        "daily" none).1 = .ok 0 ∧
    (∃ row, findDigest
        (generateDigest
          ⟨fun _ => true,
            fun _ => CollectOutcome.errCollector "auth" "Authentication failed",
            "", fun _ => none⟩
          ⟨⟨[⟨21, 1, "jira", "J", true, none⟩], [], [], [], []⟩, [], 0, 0⟩
          "daily" none).2 0 = some row ∧
      row.status = "sent" ∧ row.itemCount = 0 ∧ row.errorMessage = none) :=
  ⟨(empty_digest_sent_spec
      ⟨fun _ => true,
        fun _ => CollectOutcome.errCollector "auth" "Authentication failed",
        "", fun _ => none⟩
      ⟨⟨[⟨21, 1, "jira", "J", true, none⟩], [], [], [], []⟩, [], 0, 0⟩
      "daily" none rfl rfl rfl (by simp) rfl).1,
    (empty_digest_sent_spec
      ⟨fun _ => true,
        fun _ => CollectOutcome.errCollector "auth" "Authentication failed",
        "", fun _ => none⟩
      ⟨⟨[⟨21, 1, "jira", "J", true, none⟩], [], [], [], []⟩, [], 0, 0⟩
      "daily" none rfl rfl rfl (by simp) rfl).2.1⟩

/-- C5: an exception escaping the generation steps outside the per-source
boundary is caught exactly once at the top level — the digest is transitioned
to `failed` with the exception text as its error message, a `DigestFailed`
event carrying that text is published, and the same exception is re-raised to
the caller. -/
theorem orchestration_failure_spec
    (env : OrchEnv) (w : World) (dt : String) (pids : Option (List UUID))
    (m : String) (wMid : World)
    (h : tryGenerate env (createDigestRow w dt) w.nextId pids = (.error m, wMid)) :
    generateDigest env w dt pids =
      (.error m,
        publishEv (updateDigestStatus wMid w.nextId "failed" (some m))
          (.digestFailed w.nextId m)) ∧
    (∃ row, findDigest (generateDigest env w dt pids).2 w.nextId = some row ∧
      row.status = "failed" ∧ row.errorMessage = some m) ∧
    Ev.digestFailed w.nextId m ∈ (generateDigest env w dt pids).2.events ∧
    (generateDigest env w dt pids).1 = .error m := by
  have hgen : generateDigest env w dt pids =
      (.error m,
        publishEv (updateDigestStatus wMid w.nextId "failed" (some m))
          (.digestFailed w.nextId m)) := by
    simp only [generateDigest]
    rw [h]
  have hmem : w.nextId ∈ wMid.db.digests.map (fun d => d.id) := by
    have hids := tryGenerate_ids env (createDigestRow w dt) w.nextId pids
    rw [h] at hids
    rw [hids, createDigestRow_digests, List.map_append]
    simp
  have hsome : (findDigest wMid w.nextId).isSome := by
    obtain ⟨d, hd, hid⟩ := List.mem_map.mp hmem
    unfold findDigest
    rw [List.find?_isSome]
    exact ⟨d, hd, by simp [hid]⟩
  obtain ⟨row0, hrow0⟩ := Option.isSome_iff_exists.mp hsome
  refine ⟨hgen, ?_, ?_, by rw [hgen]⟩
  · rw [hgen]
    dsimp only
    rw [findDigest_publishEv, findDigest_update, hrow0]
    exact ⟨_, rfl, rfl, rfl⟩
  · rw [hgen]
    dsimp only
    rw [publishEv_events]
    simp

/-- Witness for `orchestration_failure_spec`: a repository failure while
moving the digest to `collecting` is re-raised with the digest marked
`failed` and carrying the exception text. -/
theorem orchestration_failure_spec_witness :
    (generateDigest
        ⟨fun _ => true, fun _ => CollectOutcome.ok [], "",
          fun op => if op = RepoOp.updateCollecting then some "db down" else none⟩
        ⟨⟨[], [], [], [], []⟩, [], 0, 0⟩ "daily" none).1 = .error "db down" :=
  (orchestration_failure_spec
    ⟨fun _ => true, fun _ => CollectOutcome.ok [], "",
      fun op => if op = RepoOp.updateCollecting then some "db down" else none⟩
    ⟨⟨[], [], [], [], []⟩, [], 0, 0⟩ "daily" none "db down"
    (createDigestRow ⟨⟨[], [], [], [], []⟩, [], 0, 0⟩ "daily") rfl).2.2.2

end Axela
